import Mathlib

/-!
Shallow embedding of `src/index.js` (the regex-replace loader) and of the
fragment of the host JavaScript string/regex primitives it calls into.

The loader itself is embedded function by function (`getRegex`,
`getValueOrMatchFn`, `getMatchFn`, `replace`, `regexReplaceLoader`), keeping
the source's names and dispatch order.  The host primitives
(`String.prototype.replace`, `new RegExp`, the callback calling convention)
are modelled by `replaceLit`, `reReplaceOnce`, `reReplaceAll` and the `RE`
matcher below, following the ECMAScript semantics for the constructs the
configurations under study use.
-/

namespace RegexReplaceLoader

/-- `var NAME` in src/index.js: the component prefix of every thrown error
message. -/
def NAME : String := "Regex Replace Loader"

/-- One positional argument of the host replace primitive's callback call:
JavaScript passes strings (the match text and participating groups),
`undefined` (non-participating groups) and numbers (the match offset). -/
inductive JSArg where
  | str (s : String)
  | undef
  | num (n : Nat)

/-- Reading a `JSArg` as a number, as the `index` seed of `getMatchFn` does
(in every actual callback call this argument is a number). -/
def JSArg.toNat : JSArg → Nat
  | .num n => n
  | _ => 0

/-- Reading a `JSArg` as a string, as the `input` seed of `getMatchFn` does
(in every actual callback call this argument is a string). -/
def JSArg.toStr : JSArg → String
  | .str s => s
  | _ => ""

/-- Abstract syntax of the host (ECMAScript) pattern language fragment the
configurations under study compile to: literal character runs, the digit
class `[0-9]`/`\d`, concatenation, greedy `+`, and capturing groups. -/
inductive RE where
  | lit (cs : List Char)
  | digit
  | cat (a b : RE)
  | plus (a : RE)
  | group (a : RE)

/-- Structural size of a pattern, used to allot recursion fuel. -/
def RE.size : RE → Nat
  | .lit _ => 1
  | .digit => 1
  | .cat a b => a.size + b.size + 1
  | .plus a => a.size + 1
  | .group a => a.size + 1

/-- Greedy matcher for `RE` at the start of `s`, modelling the host regex
primitive on the fragment above (these patterns are deterministic, so greedy
maximal munch agrees with ECMAScript backtracking).  Returns the consumed
characters, the captured group texts in opening-paren order (for a repeated
group, the last iteration's capture, as in ECMAScript), and the rest of the
input.  `fuel` only bounds the recursion depth so that the definition is
structural: every recursive call either shrinks the pattern or starts a new
`plus` iteration after consuming a character, so a fuel of
`(s.length + 1) * (r.size + 1)` — which every caller below supplies — is
never exhausted. -/
def reMatch : Nat → RE → List Char → Option (List Char × List String × List Char)
  | 0, _, _ => none
  | _ + 1, .lit cs, s => if cs.isPrefixOf s then some (cs, [], s.drop cs.length) else none
  | _ + 1, .digit, [] => none
  | _ + 1, .digit, c :: t => if c.isDigit then some ([c], [], t) else none
  | fuel + 1, .cat a b, s =>
    match reMatch fuel a s with
    | none => none
    | some (ca, ga, r1) =>
      match reMatch fuel b r1 with
      | none => none
      | some (cb, gb, r2) => some (ca ++ cb, ga ++ gb, r2)
  | fuel + 1, .group a, s =>
    match reMatch fuel a s with
    | none => none
    | some (ca, ga, r1) => some (ca, String.mk ca :: ga, r1)
  | fuel + 1, .plus a, s =>
    match reMatch fuel a s with
    | none => none
    | some (ca, ga, r1) =>
      if ca.isEmpty then some (ca, ga, r1)
      else
        match reMatch fuel (.plus a) r1 with
        | none => some (ca, ga, r1)
        | some (cs, gs, r2) => some (ca ++ cs, gs, r2)

/-- Leftmost match of `r` in `s`: the smallest offset at which the matcher
succeeds, with the consumed text, the captured groups, and the rest of the
input after the match. -/
def reFind (r : RE) : List Char → Option (Nat × List Char × List String × List Char)
  | [] =>
    match reMatch (RE.size r + 1) r [] with
    | some (c, g, rest) => some (0, c, g, rest)
    | none => none
  | c :: t =>
    match reMatch ((t.length + 2) * (RE.size r + 1)) r (c :: t) with
    | some (cs, g, rest) => some (0, cs, g, rest)
    | none =>
      match reFind r t with
      | none => none
      | some (i, cs, g, rest) => some (i + 1, cs, g, rest)

/-- The match object synthesized by `getMatchFn`: integer keys (`0` holds the
full match text, `k + 1` the `k`-th group value), plus the `index` and
`input` properties — the `RegExpMatchArray` view of the source's JSDoc. -/
structure MatchRecord where
  elems : List JSArg
  index : Nat
  input : String

/-- Reading integer key `i` of the match object as a string (the replacement
functions under study only read participating groups, which are strings). -/
def MatchRecord.get (m : MatchRecord) (i : Nat) : String :=
  (m.elems.getD i .undef).toStr

/-- `getMatchFn` from src/index.js: wraps `valueFn` into a variadic callback
for the replace primitive.  `args` is the positional argument list
`(match, group1, ..., groupN, offset, input)`; the wrapper rebuilds a match
object from all but the last two arguments (`slice(arguments, 0, -2)`,
entry `i` of the slice stored at integer key `i`), seeds it with
`index = arguments[len - 2]` and `input = arguments[len - 1]`, and calls
`valueFn` once with that record, returning its result. -/
def getMatchFn (valueFn : MatchRecord → String) (args : List JSArg) : String :=
  valueFn
    { elems := args.take (args.length - 2)
      index := (args.getD (args.length - 2) .undef).toNat
      input := (args.getD (args.length - 1) .undef).toStr }

/-- A compiled pattern object (a JavaScript `RegExp`): a pattern and a flag
string. -/
structure RegExpObj where
  source : RE
  flags : String

/-- The runtime type of a stage's `regex` option: a plain string, a compiled
`RegExp` object, or a value of any other type (carried as its type tag),
mirroring the `typeOf` dispatch of src/index.js. -/
inductive RegexOpt where
  | str (s : String)
  | regexp (r : RegExpObj)
  | other (tag : String)

/-- The runtime type of a stage's `value` option: a string, a callable, or a
value of any other type (carried as its type tag), mirroring the `typeof`
dispatch of src/index.js. -/
inductive ValueOpt where
  | str (s : String)
  | fn (f : MatchRecord → String)
  | other (tag : String)

/-- What `getRegex` actually returns: the string itself when `regex` is a
string (the code returns it unconverted), or a `RegExp` object. -/
inductive Matcher where
  | str (s : String)
  | regexp (r : RegExpObj)

/-- The `InvalidPatternType` message thrown by `getRegex`. -/
def patternErr : String := NAME ++ ": option \"regex\" must be a string or a RegExp object"

/-- The `InvalidValueType` message thrown by `getValueOrMatchFn`. -/
def valueErr : String := NAME ++ ": option \"value\" must be a string or a function"

/-- `getRegex` from src/index.js: a string `regex` is returned unchanged
(in particular `flags` is ignored), a `RegExp` is rebuilt as
`new RegExp(regex, flags)` — which keeps the pattern and takes the given
flags, or the object's own flags when `flags` is undefined (ECMAScript
2015) — and any other type throws. -/
def getRegex (regex : RegexOpt) (flags : Option String) : Except String Matcher :=
  match regex with
  | .str s => .ok (.str s)
  | .regexp r => .ok (.regexp { source := r.source, flags := flags.getD r.flags })
  | .other _ => .error patternErr

/-- What `getValueOrMatchFn` returns: the literal replacement string, or the
wrapped match function. -/
inductive Replacement where
  | str (s : String)
  | fn (f : List JSArg → String)

/-- `getValueOrMatchFn` from src/index.js: a callable is wrapped by
`getMatchFn`, a string is passed through, anything else throws. -/
def getValueOrMatchFn (value : ValueOpt) : Except String Replacement :=
  match value with
  | .fn f => .ok (.fn (getMatchFn f))
  | .str s => .ok (.str s)
  | .other _ => .error valueErr

/-- The replacement text for one regex match: a string value is used verbatim
(no configuration under study uses the host's `$`-escape sequences), a
function value is called with the host's positional arguments
`(match, group1, ..., groupN, offset, input)`. -/
def applyRepl (repl : Replacement) (matched : List Char) (groups : List String)
    (offset : Nat) (input : String) : String :=
  match repl with
  | .str v => v
  | .fn f => f (.str (String.mk matched) :: groups.map JSArg.str ++ [.num offset, .str input])

/-- Index of the first occurrence of `pat` in the list as a literal substring
(`String.prototype.indexOf`). -/
def litFind (pat : List Char) : List Char → Option Nat
  | [] => if pat.isEmpty then some 0 else none
  | s@(_ :: t) =>
    if pat.isPrefixOf s then some 0
    else
      match litFind pat t with
      | none => none
      | some i => some (i + 1)

/-- `String.prototype.replace` called with a STRING pattern: the pattern is a
literal substring, only its first occurrence is replaced, and a function
replacement is called with `(matched, offset, string)`. -/
def replaceLit (pat : String) (source : String) (repl : Replacement) : String :=
  match litFind pat.data source.data with
  | none => source
  | some j =>
    String.mk (source.data.take j)
      ++ (match repl with
          | .str v => v
          | .fn f => f [.str pat, .num j, .str source])
      ++ String.mk (source.data.drop (j + pat.data.length))

/-- `String.prototype.replace` called with a non-global `RegExp`: only the
first match is replaced. -/
def reReplaceOnce (r : RE) (source : String) (repl : Replacement) : String :=
  match reFind r source.data with
  | none => source
  | some (j, matched, groups, rest) =>
    String.mk (source.data.take j) ++ applyRepl repl matched groups j source
      ++ String.mk rest

/-- Loop of the global (`g` flag) `RegExp` replace: repeatedly find the next
match in the remaining input `s` (whose head sits at absolute offset `base`
of `input`) and splice in the replacement; after an empty match the host
advances `lastIndex` past one character, which is kept.  `fuel` bounds the
iteration; `input.length + 1` is always enough. -/
def reReplaceAllAux (r : RE) (repl : Replacement) (input : String) :
    Nat → List Char → Nat → String
  | 0, s, _ => String.mk s
  | fuel + 1, s, base =>
    match reFind r s with
    | none => String.mk s
    | some (j, matched, groups, rest) =>
      String.mk (s.take j) ++ applyRepl repl matched groups (base + j) input
        ++ (if matched.isEmpty then
              match rest with
              | [] => ""
              | c :: t => String.mk [c] ++ reReplaceAllAux r repl input fuel t (base + j + 1)
            else reReplaceAllAux r repl input fuel rest (base + j + matched.length))

/-- `String.prototype.replace` called with a global `RegExp`: every
non-overlapping match is replaced, left to right. -/
def reReplaceAll (r : RE) (source : String) (repl : Replacement) : String :=
  reReplaceAllAux r repl source (source.data.length + 1) source.data 0

/-- `source.replace(regex, valueOrFn)` as invoked by `replace` in
src/index.js: a string matcher is a literal first-occurrence replace; a
`RegExp` matcher replaces the first match, or all matches when its flags
contain `g`. -/
def stringReplace (matcher : Matcher) (source : String) (repl : Replacement) : String :=
  match matcher with
  | .str pat => replaceLit pat source repl
  | .regexp r =>
    if r.flags.data.contains 'g' then reReplaceAll r.source source repl
    else reReplaceOnce r.source source repl

/-- One stage configuration (the `LoaderOptions` typedef of src/index.js):
`regex`, optional `flags`, `value`, and `enable`.  JavaScript truthiness of
`enable` is collapsed to `Bool`; an absent or otherwise falsy `enable` is
`false`. -/
structure Stage where
  regex : RegexOpt
  flags : Option String
  value : ValueOpt
  enable : Bool

/-- A loader configuration: either `options.stages` is an array and is used
as the stage list, or the options object itself is the sole stage
(`Array.isArray(options.stages) ? options.stages : [options]`). -/
inductive Config where
  | single (st : Stage)
  | stages (l : List Stage)

/-- The stage list the loader iterates over. -/
def Config.stageList : Config → List Stage
  | .single st => [st]
  | .stages l => l

/-- `replace` from src/index.js: resolve `options.value` (a thrown
`InvalidValueType` propagates), then run the host replace primitive. -/
def replace (regex : Matcher) (source : String) (options : Stage) : Except String String :=
  match getValueOrMatchFn options.value with
  | .error e => .error e
  | .ok valueOrFn => .ok (stringReplace regex source valueOrFn)

/-- The `stages.forEach` body of `regexReplaceLoader`: a stage with truthy
`enable` resolves its regex and runs `replace`; otherwise the stage is
skipped and the buffer passes through. -/
def runStage (source : String) (stage : Stage) : Except String String :=
  if stage.enable then
    match getRegex stage.regex stage.flags with
    | .error e => .error e
    | .ok regex => replace regex source stage
  else .ok source

/-- The `forEach` loop: stages run in order, each output feeding the next
stage; a thrown error aborts the whole invocation. -/
def runStages (source : String) : List Stage → Except String String
  | [] => .ok source
  | st :: rest =>
    match runStage source st with
    | .error e => .error e
    | .ok s => runStages s rest

/-- `regexReplaceLoader` from src/index.js, with the options object (obtained
in the source from the loader context via `getOptions`) passed explicitly:
normalize the configuration to a stage list and run the stages over the
buffer. -/
def regexReplaceLoader (source : String) (options : Config) : Except String String :=
  runStages source options.stageList

/-- Whether a resolved matcher occurs at all in `b`, under the code's
interpretation: a string matcher occurs as a literal substring, a `RegExp`
matcher by regex search. -/
def matcherHits (m : Matcher) (b : String) : Bool :=
  match m with
  | .str pat => (litFind pat.data b.data).isSome
  | .regexp r => (reFind r.source b.data).isSome

/-- Whether `value` has one of the two runtime types `getValueOrMatchFn`
accepts. -/
def valueValid (v : ValueOpt) : Bool :=
  match v with
  | .other _ => false
  | _ => true

/-- The pattern `(\d+)-(\d+)` as compiled by the host. -/
def dashPairRE : RE :=
  .cat (.group (.plus .digit)) (.cat (.lit ['-']) (.group (.plus .digit)))

/-- Taking all but the last two elements of an argument list returns the
front of the list: the slice `arguments.slice(0, -2)` of `getMatchFn`. -/
theorem take_before_last_two (l : List JSArg) (a b : JSArg) :
    (l ++ [a, b]).take ((l ++ [a, b]).length - 2) = l := by
  have hlen : (l ++ [a, b]).length - 2 = l.length := by simp
  rw [hlen, List.take_left]

/-- The second-to-last element of an argument list ending in `[a, b]` is `a`:
the `arguments[len - 2]` access of `getMatchFn`. -/
theorem getD_before_last_two (l : List JSArg) (a b d : JSArg) :
    (l ++ [a, b]).getD ((l ++ [a, b]).length - 2) d = a := by
  induction l with
  | nil => rfl
  | cons x xs ih =>
    have hlen : (x :: (xs ++ [a, b])).length - 2 = ((xs ++ [a, b]).length - 2) + 1 := by
      simp only [List.length_cons, List.length_append, List.length_nil]
      omega
    rw [List.cons_append, hlen, List.getD_cons_succ, ih]

/-- The last element of an argument list ending in `[a, b]` is `b`:
the `arguments[len - 1]` access of `getMatchFn`. -/
theorem getD_last_of_two (l : List JSArg) (a b d : JSArg) :
    (l ++ [a, b]).getD ((l ++ [a, b]).length - 1) d = b := by
  induction l with
  | nil => rfl
  | cons x xs ih =>
    have hlen : (x :: (xs ++ [a, b])).length - 1 = ((xs ++ [a, b]).length - 1) + 1 := by
      simp only [List.length_cons, List.length_append, List.length_nil]
      omega
    rw [List.cons_append, hlen, List.getD_cons_succ, ih]

/-- Running a concatenation of stage lists runs the first list, then feeds
its output to the second (errors abort). -/
theorem runStages_append (l1 l2 : List Stage) : ∀ b : String,
    runStages b (l1 ++ l2)
      = match runStages b l1 with
        | .error e => .error e
        | .ok s => runStages s l2 := by
  induction l1 with
  | nil => intro b; rfl
  | cons st l1 ih =>
    intro b
    simp only [List.cons_append, runStages]
    cases runStage b st <;> simp [ih]

/-- A replace with a matcher that occurs nowhere in the buffer returns the
buffer unchanged, for every kind of matcher and replacement. -/
theorem stringReplace_no_hit (m : Matcher) (b : String) (repl : Replacement)
    (h : matcherHits m b = false) : stringReplace m b repl = b := by
  cases m with
  | str pat =>
    cases hf : litFind pat.data b.data with
    | none => simp [stringReplace, replaceLit, hf]
    | some i => simp [matcherHits, hf] at h
  | regexp r =>
    cases hf : reFind r.source b.data with
    | none =>
      cases hg : r.flags.data.contains 'g' with
      | true =>
        simp only [stringReplace, hg, if_true, reReplaceAll, reReplaceAllAux, hf]
      | false =>
        simp only [stringReplace, hg, reReplaceOnce, hf]
        rfl
    | some x => simp [matcherHits, hf] at h

/-- A stage whose matcher occurs nowhere in the buffer (and whose options are
well typed) leaves the buffer unchanged. -/
theorem runStage_no_hit (b : String) (st : Stage)
    (h : st.enable = true → valueValid st.value = true ∧
      ∃ m, getRegex st.regex st.flags = .ok m ∧ matcherHits m b = false) :
    runStage b st = .ok b := by
  cases hen : st.enable with
  | false => simp [runStage, hen]
  | true =>
    obtain ⟨hv, m, hm, hhit⟩ := h hen
    cases hval : st.value with
    | str s =>
      simp [runStage, hen, hm, replace, hval, getValueOrMatchFn,
        stringReplace_no_hit m b _ hhit]
    | fn f =>
      simp [runStage, hen, hm, replace, hval, getValueOrMatchFn,
        stringReplace_no_hit m b _ hhit]
    | other t => rw [hval] at hv; simp [valueValid] at hv

/-- Running a stage list in which no enabled stage's matcher occurs in the
buffer returns the buffer unchanged. -/
theorem runStages_no_hit (b : String) (l : List Stage)
    (h : ∀ st ∈ l, st.enable = true → valueValid st.value = true ∧
      ∃ m, getRegex st.regex st.flags = .ok m ∧ matcherHits m b = false) :
    runStages b l = .ok b := by
  induction l with
  | nil => rfl
  | cons st rest ih =>
    simp only [runStages, runStage_no_hit b st (h st (by simp))]
    exact ih (fun s hs => h s (by simp [hs]))

/-- C1: evaluating the loader at the claim's own inputs exposes the bug: a
regex given as a plain string reaches `String.prototype.replace` unconverted
(although `getRegex`'s doc comment and return type promise a RegExp), so the
host matches it as a literal substring; `"[0-9]+"` and `"[0-9]"` occur
nowhere in the buffers, which come back unchanged instead of becoming
`"abcX"` and `"a#b#c#"` as the claim states. -/
theorem c1_string_pattern_treated_literally :
    regexReplaceLoader "abc123" (.single ⟨.str "[0-9]+", none, .str "X", true⟩)
        = .ok "abc123"
    ∧ regexReplaceLoader "a1b2c3" (.single ⟨.str "[0-9]", none, .str "#", true⟩)
        = .ok "a1b2c3"
    ∧ ("abc123" : String) ≠ "abcX"
    ∧ ("a1b2c3" : String) ≠ "a#b#c#" :=
  ⟨rfl, rfl, by decide, by decide⟩

/-- C2 counterexample: a top-level single-stage configuration with valid
regex and value but `enable: false` is NOT substituted — the loader returns
the buffer unchanged instead of the substituted "Zbc" — so the single-stage
form is not "always treated as enabled". -/
theorem c2_counterexample :
    regexReplaceLoader "abc" (.single ⟨.str "a", none, .str "Z", false⟩) = .ok "abc"
    ∧ ("abc" : String) ≠ "Zbc" :=
  ⟨rfl, by decide⟩

/-- C2 (amended): a top-level single-stage configuration passes through the
same `enable` gate as a stage inside `stages`: a falsy `enable` returns the
buffer unchanged, a truthy `enable` performs the stage's substitution (for a
string regex, the literal first-occurrence replace the code does). -/
theorem c2_single_stage_enable_gate :
    (∀ (b : String) (rx : RegexOpt) (fl : Option String) (v : ValueOpt),
      regexReplaceLoader b (.single ⟨rx, fl, v, false⟩) = .ok b)
    ∧ (∀ (b pat v : String) (fl : Option String),
      regexReplaceLoader b (.single ⟨.str pat, fl, .str v, true⟩)
        = .ok (replaceLit pat b (.str v)))
    ∧ regexReplaceLoader "abc" (.single ⟨.str "a", none, .str "Z", true⟩) = .ok "Zbc" :=
  ⟨fun _ _ _ _ => rfl, fun _ _ _ _ => rfl, rfl⟩

/-- C3: the callback adapter rebuilds one match record from the positional
arguments — the match text at integer key 0 and the group values at the
following integer keys, the match offset at `index`, the full buffer at
`input` — invokes the user function once with that record and returns its
string result; instantiated through the loader on `(\d+)-(\d+)` over
"10-20": the function sees groups "10" and "20" (result "10+20") and
observes `index = 0` and `input = "10-20"`. -/
theorem c3_callback_adapter :
    (∀ (f : MatchRecord → String) (m : String) (gs : List String) (i : Nat) (s : String),
      getMatchFn f (.str m :: gs.map JSArg.str ++ [.num i, .str s])
        = f { elems := .str m :: gs.map JSArg.str, index := i, input := s })
    ∧ regexReplaceLoader "10-20"
        (.single ⟨.regexp ⟨dashPairRE, ""⟩, none,
          .fn (fun m => m.get 1 ++ "+" ++ m.get 2), true⟩)
        = .ok "10+20"
    ∧ regexReplaceLoader "10-20"
        (.single ⟨.regexp ⟨dashPairRE, ""⟩, none,
          .fn (fun m => if m.index == 0 && m.input == "10-20" then "seen" else "missed"),
          true⟩)
        = .ok "seen" := by
  refine ⟨fun f m gs i s => ?_, rfl, rfl⟩
  have e1 : (JSArg.str m :: gs.map JSArg.str ++ [.num i, .str s])
      = (JSArg.str m :: gs.map JSArg.str) ++ [JSArg.num i, JSArg.str s] := rfl
  simp only [getMatchFn]
  rw [e1, take_before_last_two, getD_before_last_two, getD_last_of_two]
  rfl

/-- C4: an enabled stage whose regex is neither a string nor a RegExp makes
the whole invocation throw the InvalidPatternType error — whatever stages
follow never run and no buffer is produced — and the message carries the
component-identifying prefix. -/
theorem c4_invalid_pattern_type :
    (∀ (b tag : String) (fl : Option String) (v : ValueOpt) (rest : List Stage),
      regexReplaceLoader b (.stages (⟨.other tag, fl, v, true⟩ :: rest))
        = .error patternErr)
    ∧ (∀ (b tag : String) (fl : Option String) (v : ValueOpt),
      regexReplaceLoader b (.single ⟨.other tag, fl, v, true⟩) = .error patternErr)
    ∧ NAME.data.isPrefixOf patternErr.data = true :=
  ⟨fun _ _ _ _ _ => rfl, fun _ _ _ _ => rfl, by decide⟩

/-- C5: an enabled stage with a valid regex (a string or a RegExp) whose
value is neither a string nor a callable makes the invocation throw the
InvalidValueType error with the component-identifying prefix; a single-stage
configuration yields that error and no substituted buffer. -/
theorem c5_invalid_value_type :
    (∀ (b pat tag : String) (fl : Option String) (rest : List Stage),
      regexReplaceLoader b (.stages (⟨.str pat, fl, .other tag, true⟩ :: rest))
        = .error valueErr)
    ∧ (∀ (b tag : String) (r : RegExpObj) (fl : Option String),
      regexReplaceLoader b (.single ⟨.regexp r, fl, .other tag, true⟩) = .error valueErr)
    ∧ (∀ (b pat tag : String) (fl : Option String),
      regexReplaceLoader b (.single ⟨.str pat, fl, .other tag, true⟩) = .error valueErr)
    ∧ NAME.data.isPrefixOf valueErr.data = true :=
  ⟨fun _ _ _ _ _ => rfl, fun _ _ _ _ => rfl, fun _ _ _ _ => rfl, by decide⟩

/-- C6: stages run strictly sequentially — running a concatenated stage list
equals running the first part and feeding its output buffer to the second —
and on the claim's example the second stage rewrites the `b` produced by the
first stage, giving "coo". -/
theorem c6_sequential_stages :
    (∀ (b : String) (l1 l2 : List Stage),
      regexReplaceLoader b (.stages (l1 ++ l2))
        = match regexReplaceLoader b (.stages l1) with
          | .error e => .error e
          | .ok s => regexReplaceLoader s (.stages l2))
    ∧ regexReplaceLoader "foo"
        (.stages [⟨.str "f", none, .str "b", true⟩, ⟨.str "b", none, .str "c", true⟩])
        = .ok "coo" :=
  ⟨fun b l1 l2 => runStages_append l1 l2 b, rfl⟩

/-- C7: pattern resolution returns a plain string pattern unchanged — hence
the stage's `flags` cannot affect the loader's result when the regex is a
string — and recompiles a RegExp object into a new object with the same
pattern and the given flags. -/
theorem c7_pattern_resolution :
    (∀ (s : String) (fl : Option String), getRegex (.str s) fl = .ok (.str s))
    ∧ (∀ (b pat : String) (fl1 fl2 : Option String) (v : ValueOpt) (e : Bool),
      regexReplaceLoader b (.single ⟨.str pat, fl1, v, e⟩)
        = regexReplaceLoader b (.single ⟨.str pat, fl2, v, e⟩))
    ∧ (∀ (r : RegExpObj) (f : String),
      getRegex (.regexp r) (some f) = .ok (.regexp ⟨r.source, f⟩)) := by
  refine ⟨fun s fl => rfl, fun b pat fl1 fl2 v e => ?_, fun r f => rfl⟩
  cases e <;> rfl

/-- C8: identity on no match — when every enabled stage of the configuration
has well-typed options and a resolved matcher that occurs nowhere in `b`
(literal occurrence for string regexes, regex search for RegExp regexes),
the loader returns `b` unchanged. -/
theorem c8_identity_on_no_match (b : String) (cfg : Config)
    (h : ∀ st ∈ cfg.stageList, st.enable = true →
      valueValid st.value = true ∧
      ∃ m, getRegex st.regex st.flags = .ok m ∧ matcherHits m b = false) :
    regexReplaceLoader b cfg = .ok b :=
  runStages_no_hit b cfg.stageList h

/-- C8 witness: the pattern "x" occurs nowhere in "abc", and the loader
returns the buffer unchanged. -/
theorem c8_identity_on_no_match_witness :
    regexReplaceLoader "abc" (.single ⟨.str "x", none, .str "Y", true⟩) = .ok "abc" :=
  c8_identity_on_no_match "abc" (.single ⟨.str "x", none, .str "Y", true⟩)
    (by
      intro st hst hen
      simp only [Config.stageList, List.mem_singleton] at hst
      subst hst
      exact ⟨rfl, ⟨.str "x", rfl, by decide⟩⟩)

/-- C9: a stage with falsy `enable` is skipped entirely: deleting it from the
stage list never changes the loader's result, and on the claim's example the
buffer passes through unchanged. -/
theorem c9_disabled_stage_skipped :
    (∀ (b : String) (pre post : List Stage) (rx : RegexOpt) (fl : Option String)
        (v : ValueOpt),
      regexReplaceLoader b (.stages (pre ++ ⟨rx, fl, v, false⟩ :: post))
        = regexReplaceLoader b (.stages (pre ++ post)))
    ∧ regexReplaceLoader "abc" (.single ⟨.str "a", none, .str "Z", false⟩) = .ok "abc" := by
  refine ⟨fun b pre post rx fl v => ?_, rfl⟩
  induction pre generalizing b with
  | nil => rfl
  | cons p ps ih =>
    simp only [regexReplaceLoader, Config.stageList, List.cons_append, runStages]
    cases runStage b p with
    | error e => rfl
    | ok s => exact ih s

/-- C10: a disabled stage's `regex` and `value` are never inspected: the
loader's result is the same whatever they hold, and a disabled stage whose
regex and value both have invalid types raises no error and passes the
buffer through. -/
theorem c10_disabled_stage_options_never_inspected :
    (∀ (b : String) (rx1 rx2 : RegexOpt) (fl1 fl2 : Option String) (v1 v2 : ValueOpt)
        (rest : List Stage),
      regexReplaceLoader b (.stages (⟨rx1, fl1, v1, false⟩ :: rest))
        = regexReplaceLoader b (.stages (⟨rx2, fl2, v2, false⟩ :: rest)))
    ∧ (∀ (b t1 t2 : String),
      regexReplaceLoader b (.single ⟨.other t1, none, .other t2, false⟩) = .ok b) :=
  ⟨fun _ _ _ _ _ _ _ _ => rfl, fun _ _ _ => rfl⟩

end RegexReplaceLoader
